import Mathlib

set_option maxHeartbeats 1000000

/-!
Verification development for the agent-installer core of the `ax` repository.

The development shallowly embeds the registry resolver (`src/core/registry.rs`)
and the installer adapters (`src/installers/{claude,cursor,codex}.rs`).
Strings are Lean `String`s; where the Rust code slices at byte indices the
embedding works on the character list `String.data` (all delimiters involved
are ASCII, so byte positions and character positions of every pattern match
coincide).  The filesystem is modelled as a partial map from paths (lists of
components) to file contents; JSON documents are modelled by an inductive
`Json` type with serde_json's object lookup/assignment semantics.
-/

/-- JSON values as manipulated by the installers through serde_json.
Objects are association lists; the lookup and assignment operations below
mirror serde_json `Value::get` and index assignment. -/
inductive Json where
  | null : Json
  | bool : Bool → Json
  | num : Int → Json
  | str : String → Json
  | arr : List Json → Json
  | obj : List (String × Json) → Json

/-- Lookup of a key in a JSON object association list. -/
def getPair : List (String × Json) → String → Option Json
  | [], _ => none
  | (k', v') :: rest, k => if k' = k then some v' else getPair rest k

/-- Insert-or-replace of a key in a JSON object association list
(serde_json map insertion: replaces the value if the key is present,
adds the entry otherwise). -/
def setPair : List (String × Json) → String → Json → List (String × Json)
  | [], k, v => [(k, v)]
  | (k', v') :: rest, k, v =>
    if k' = k then (k, v) :: rest else (k', v') :: setPair rest k v

/-- serde_json `Value::get(key)`: object lookup, `none` on any non-object. -/
def Json.getKey? : Json → String → Option Json
  | .obj m, k => getPair m k
  | _, _ => none

/-- serde_json index assignment `value[key] = v`: replaces or adds the key on
an object, turns `null` into a fresh object (serde_json auto-vivifies null).
On the remaining variants serde_json panics; the theorems below only apply
this operation to objects (and null), so that branch is modelled as the
identity and never reached. -/
def Json.setKey : Json → String → Json → Json
  | .obj m, k, v => .obj (setPair m k v)
  | .null, k, v => .obj [(k, v)]
  | j, _, _ => j

/-- serde_json nested index assignment `value[k1][k2] = v` as performed by the
JSON installers inside their tool loop. -/
def Json.setKey2 (j : Json) (k1 k2 : String) (v : Json) : Json :=
  match j.getKey? k1 with
  | some inner => j.setKey k1 (inner.setKey k2 v)
  | none => j.setKey k1 (Json.null.setKey k2 v)

/-- `McpTool` from `src/core/agent.rs`.  `env` is a `HashMap` in the source;
it is modelled as an association list (no claim depends on iteration order). -/
structure McpTool where
  name : String
  command : String
  args : List String := []
  env : List (String × String) := []
  setup_url : Option String := none
deriving DecidableEq

/-- `Skill` from `src/core/agent.rs`.  `metadata` is modelled as an
association list; `source_dir` as an abstract path.  `remote_base_url` is the
field written by `Registry::fetch_skill_as_agent` and read by
`CodexInstaller::install_skills`. -/
structure Skill where
  name : String := ""
  description : Option String := none
  content : String := ""
  allowed_tools : Option String := none
  license : Option String := none
  compatibility : Option String := none
  metadata : Option (List (String × String)) := none
  dependencies : Option String := none
  source_dir : Option (List String) := none
  remote_base_url : Option String := none
deriving DecidableEq

/-- `Identity` from `src/core/agent.rs`. -/
structure Identity where
  model : Option String := none
  icon : Option String := none
  system_prompt : String
deriving DecidableEq

/-- `AgentConfig` from `src/core/agent.rs`. -/
structure AgentConfig where
  name : String
  version : String
  description : String
  author : String
  identity : Identity
  skills : List Skill := []
  mcp : List McpTool := []
deriving DecidableEq

/-- `AgentInfo` from `src/core/agent.rs`. -/
structure AgentInfo where
  name : String
  version : String
  description : String
  author : String
deriving DecidableEq

/-- The Unicode `White_Space` characters: the set stripped by Rust
`str::trim` (`char::is_whitespace`). -/
def rustWsChars : List Char :=
  ['\u0009', '\u000a', '\u000b', '\u000c', '\u000d', '\u0020', '\u0085',
   '\u00a0', '\u1680', '\u2000', '\u2001', '\u2002', '\u2003', '\u2004',
   '\u2005', '\u2006', '\u2007', '\u2008', '\u2009', '\u200a', '\u2028',
   '\u2029', '\u202f', '\u205f', '\u3000']

/-- Rust `char::is_whitespace`. -/
def isRustWs (c : Char) : Bool := rustWsChars.contains c

/-- Rust `str::trim` on the character level. -/
def rustTrim (l : List Char) : List Char :=
  ((l.dropWhile isRustWs).reverse.dropWhile isRustWs).reverse

/-- Rust `str::find(pattern)` on the character level: position of the first
occurrence of `pat`, scanning left to right. -/
def findSub (pat : List Char) : List Char → Option Nat
  | [] => if pat.isEmpty then some 0 else none
  | c :: rest =>
    if pat.isPrefixOf (c :: rest) then some 0
    else (findSub pat rest).map (· + 1)

/-- Rust `str::contains(pattern)`: substring containment. -/
def containsStr (s pat : String) : Bool :=
  (findSub pat.data s.data).isSome

/-- Plain-scalar characters: the restriction under which the modelled YAML
frontmatter parser below is faithful to serde_yaml. -/
def plainChar (c : Char) : Bool :=
  ('a' ≤ c && c ≤ 'z') || ('A' ≤ c && c ≤ 'Z') || ('0' ≤ c && c ≤ '9') ||
  c = '-' || c = '_' || c = '.'

/-- YAML inline whitespace around a plain scalar value. -/
def isSpaceTab (c : Char) : Bool := c = ' ' || c = '\t'

/-- Strip inline whitespace around a plain scalar value. -/
def valTrim (l : List Char) : List Char :=
  ((l.dropWhile isSpaceTab).reverse.dropWhile isSpaceTab).reverse

/-- Split a character list at newline characters. -/
def splitLines : List Char → List (List Char)
  | [] => [[]]
  | c :: rest =>
    if c = '\n' then [] :: splitLines rest
    else
      match splitLines rest with
      | [] => [[c]]
      | l :: ls => (c :: l) :: ls

/-- Modelled from the spec: one line of the YAML frontmatter, `key: value`.
The deserializer itself (serde_yaml) is external to the repository; the spec
says only "Parse frontmatter into Skill fields".  The model accepts flat
`key: value` lines whose key and trimmed value are plain scalars and rejects
everything else, matching serde_yaml's behaviour on that fragment. -/
def parseYamlLine (l : List Char) : Option (String × String) :=
  let key := l.takeWhile (fun c => c ≠ ':')
  match l.dropWhile (fun c => c ≠ ':') with
  | ':' :: v =>
    let value := valTrim v
    if key.all plainChar && value.all plainChar then
      some (⟨key⟩, ⟨value⟩)
    else none
  | _ => none

/-- Lookup of a frontmatter key among the parsed `key: value` pairs. -/
def yamlLookup (kvs : List (String × String)) (k : String) : Option String :=
  (kvs.find? (fun kv => kv.1 = k)).map Prod.snd

/-- Modelled from the spec: serde_yaml deserialization of a frontmatter block
into a `Skill` (`serde_yaml::from_str::<Skill>`).  Restricted to flat
`key: value` scalar lines (see `parseYamlLine`); a missing `name` key fails
deserialization because `Skill.name` has no serde default. -/
def parseSkillYaml (fm : String) : Option Skill :=
  let lines := (splitLines fm.data).filter (fun l => ¬ l.isEmpty)
  match lines.mapM parseYamlLine with
  | none => none
  | some kvs =>
    match yamlLookup kvs "name" with
    | none => none
    | some n =>
      some { name := n,
             description := yamlLookup kvs "description",
             content := (yamlLookup kvs "content").getD "",
             allowed_tools := yamlLookup kvs "allowed-tools",
             license := yamlLookup kvs "license",
             compatibility := yamlLookup kvs "compatibility",
             metadata := none,
             dependencies := yamlLookup kvs "dependencies" }

/-- The frontmatter/body split performed by `Registry::parse_skill_md`
(`src/core/registry.rs` lines 145-178): `none` when the document has no
leading `---` or no closing delimiter, otherwise the trimmed frontmatter and
the body with leading newline characters stripped. -/
def skillSplitParts (cs : List Char) : Option (List Char × List Char) :=
  if "---".data.isPrefixOf cs then
    let rest := cs.drop 3
    ((findSub "\n---".data rest).orElse (fun _ => findSub "\r\n---".data rest)).map
      (fun idx =>
        (rustTrim (rest.take idx),
         if idx + 4 < rest.length then
           (rest.drop (idx + 4)).dropWhile (fun c => c = '\n' || c = '\r')
         else []))
  else none

/-- `Registry::parse_skill_md` (`src/core/registry.rs` lines 142-196): parse a
`SKILL.md` document (YAML frontmatter plus markdown body) into a `Skill`.
Both early returns of the source (no leading `---`, no closing delimiter)
are the `none` branch of `skillSplitParts`. -/
def parse_skill_md (name content : String) : Skill :=
  match skillSplitParts content.data with
  | none => { name := name, content := content }
  | some (fm, body) =>
    let skill :=
      match parseSkillYaml ⟨fm⟩ with
      | some s => s
      | none => { name := name : Skill }
    let skill := { skill with content := (⟨body⟩ : String) }
    if skill.name = "" then { skill with name := name } else skill

/-- `Registry::get_builtin_agents` (`src/core/registry.rs` lines 199-220):
the fixed built-in agent-summary table. -/
def get_builtin_agents : List AgentInfo :=
  [ { name := "rust-architect", version := "1.0.0",
      description := "Senior Rust Systems Engineer optimized for Tokio & zero-cost abstractions",
      author := "ahmed6ww" },
    { name := "fullstack-next", version := "1.0.0",
      description := "Next.js 15 + FastAPI + ShadcnUI full-stack expert",
      author := "ahmed6ww" },
    { name := "qa-testing-squad", version := "1.0.0",
      description := "Playwright + Jest testing configuration specialist",
      author := "ahmed6ww" } ]

/-- The shared `context7` tool entry of the built-in agents. -/
def context7Tool : McpTool :=
  { name := "context7", command := "npx",
    args := ["-y", "@upstash/context7-mcp"],
    env := [("CONTEXT7_API_KEY", "$\x7bCONTEXT7_API_KEY\x7d")],
    setup_url := some "https://context7.com/dashboard" }

/-- `Registry::rust_architect_agent` (`src/core/registry.rs` lines 232-338). -/
def rust_architect_agent : AgentConfig :=
  { name := "rust-architect", version := "1.0.0",
    description := "Senior Rust Systems Engineer optimized for Tokio & zero-cost abstractions",
    author := "ahmed6ww",
    identity := { model := some "claude-3-5-sonnet-latest", icon := some "🦀",
                  system_prompt := "You are a specialized Rust subagent with deep expertise in systems programming.\n\n## Core Principles\n- You prefer composition over inheritance\n- You use `anyhow` for applications and `thiserror` for libraries\n- You strictly follow borrow checker patterns\n- You leverage zero-cost abstractions whenever possible\n- You write idiomatic Rust that compiles on stable\n\n## Error Handling\n- Use `Result<T, E>` for recoverable errors\n- Use `panic!` only for unrecoverable bugs\n- Provide context with `.context()` from anyhow\n- Create custom error types with thiserror for libraries\n\n## Async Patterns\n- Use Tokio as the default async runtime\n- Prefer `tokio::spawn` for concurrent tasks\n- Use `task::spawn_blocking` for CPU-intensive work\n- Never block the async runtime\n\n## Memory & Performance\n- Minimize allocations where possible\n- Use `Cow<str>` for flexible string handling\n- Leverage the type system for compile-time guarantees\n- Profile before optimizing" },
    skills :=
      [ { name := "tokio-patterns",
          description := some "Best practices for async programming with Tokio runtime",
          content := "# Tokio Best Practices\n\n## Task Management\n- Use `tokio::spawn` for fire-and-forget async tasks\n- Use `tokio::spawn_blocking` for CPU-heavy synchronous work\n- Use `JoinSet` for managing multiple concurrent tasks\n\n## Channels\n- Use `mpsc` for multi-producer, single-consumer scenarios\n- Use `broadcast` for pub/sub patterns\n- Use `oneshot` for request-response patterns\n\n## Timeouts & Cancellation\n- Always set timeouts with `tokio::time::timeout`\n- Use `CancellationToken` for graceful shutdown\n- Handle `JoinError` for task panics" },
        { name := "error-handling",
          description := some "Rust error handling patterns using anyhow and thiserror",
          content := "# Rust Error Handling Patterns\n\n## For Applications (use anyhow)\n```rust\nuse anyhow::\x7bContext, Result\x7d;\n\nfn main() -> Result<()> \x7b\n    let config = load_config()\n        .context(\"Failed to load configuration\")?;\n    Ok(())\n\x7d\n```\n\n## For Libraries (use thiserror)\n```rust\nuse thiserror::Error;\n\n#[derive(Error, Debug)]\npub enum MyError \x7b\n    #[error(\"IO error: \x7b0\x7d\")]\n    Io(#[from] std::io::Error),\n    #[error(\"Invalid input: \x7bmessage\x7d\")]\n    InvalidInput \x7b message: String \x7d,\n\x7d\n```" } ],
    mcp := [context7Tool] }

/-- `Registry::fullstack_next_agent` (`src/core/registry.rs` lines 340-428). -/
def fullstack_next_agent : AgentConfig :=
  { name := "fullstack-next", version := "1.0.0",
    description := "Next.js 15 + FastAPI + ShadcnUI full-stack expert",
    author := "ahmed6ww",
    identity := { model := some "claude-3-5-sonnet-latest", icon := some "⚡",
                  system_prompt := "You are a full-stack development expert specializing in modern web applications.\n\n## Tech Stack Expertise\n- **Frontend**: Next.js 15 with App Router, React 19, TypeScript\n- **UI**: ShadcnUI, Tailwind CSS, Radix UI primitives\n- **Backend**: FastAPI (Python), SQLAlchemy, Pydantic\n- **Database**: PostgreSQL, Redis for caching\n\n## Next.js 15 Patterns\n- Use Server Components by default\n- Use \x27use client\x27 directive only when needed\n- Leverage Server Actions for mutations\n- Use Suspense for loading states\n\n## API Design\n- RESTful endpoints with FastAPI\n- Pydantic models for validation\n- Proper HTTP status codes\n- OpenAPI documentation\n\n## Best Practices\n- TypeScript strict mode\n- Zod for runtime validation\n- React Query for data fetching\n- Proper error boundaries" },
    skills :=
      [ { name := "nextjs-patterns",
          description := some "Next.js 15 patterns for Server Components, Client Components, and Server Actions",
          content := "# Next.js 15 Patterns\n\n## Server Components (Default)\n```tsx\n// app/users/page.tsx\nasync function UsersPage() \x7b\n  const users = await fetchUsers();\n  return <UserList users=\x7busers\x7d />;\n\x7d\n```\n\n## Client Components\n```tsx\n\x27use client\x27;\nimport \x7b useState \x7d from \x27react\x27;\n\nexport function Counter() \x7b\n  const [count, setCount] = useState(0);\n  return <button onClick=\x7b() => setCount(c => c + 1)\x7d>\x7bcount\x7d</button>;\n\x7d\n```\n\n## Server Actions\n```tsx\n\x27use server\x27;\nexport async function createUser(formData: FormData) \x7b\n  // Runs on the server\n\x7d\n```" } ],
    mcp := [context7Tool] }

/-- `Registry::qa_testing_squad_agent` (`src/core/registry.rs` lines 430-519). -/
def qa_testing_squad_agent : AgentConfig :=
  { name := "qa-testing-squad", version := "1.0.0",
    description := "Playwright + Jest testing configuration specialist",
    author := "ahmed6ww",
    identity := { model := some "claude-3-5-sonnet-latest", icon := some "🧪",
                  system_prompt := "You are a QA and testing specialist focused on automated testing.\n\n## Testing Expertise\n- **E2E Testing**: Playwright for browser automation\n- **Unit Testing**: Jest + React Testing Library\n- **API Testing**: Supertest, pytest\n- **Performance**: Lighthouse, k6\n\n## Testing Principles\n- Write tests that provide confidence, not coverage\n- Follow the Testing Trophy (more integration tests)\n- Use Page Object Model for E2E tests\n- Mock at the network boundary\n\n## Playwright Best Practices\n- Use locators that are resilient to change\n- Prefer user-visible locators (role, text, label)\n- Use fixtures for test setup\n- Run tests in parallel\n\n## Jest Patterns\n- Test behavior, not implementation\n- Use describe blocks for organization\n- Mock external dependencies only\n- Keep tests focused and fast" },
    skills :=
      [ { name := "playwright-setup",
          description := some "Playwright configuration and Page Object Model patterns for E2E testing",
          content := "# Playwright Configuration\n\n## playwright.config.ts\n```typescript\nimport \x7b defineConfig \x7d from \x27@playwright/test\x27;\n\nexport default defineConfig(\x7b\n  testDir: \x27./e2e\x27,\n  fullyParallel: true,\n  retries: process.env.CI ? 2 : 0,\n  reporter: \x27html\x27,\n  use: \x7b\n    baseURL: \x27http://localhost:3000\x27,\n    trace: \x27on-first-retry\x27,\n  \x7d,\n\x7d);\n```\n\n## Page Object Example\n```typescript\nexport class LoginPage \x7b\n  constructor(private page: Page) \x7b\x7d\n\n  async login(email: string, password: string) \x7b\n    await this.page.getByLabel(\x27Email\x27).fill(email);\n    await this.page.getByLabel(\x27Password\x27).fill(password);\n    await this.page.getByRole(\x27button\x27, \x7b name: \x27Sign in\x27 \x7d).click();\n  \x7d\n\x7d\n```" } ],
    mcp := [context7Tool] }

/-- `Registry::get_builtin_agent` (`src/core/registry.rs` lines 223-230). -/
def get_builtin_agent (name : String) : Option AgentConfig :=
  if name = "rust-architect" then some rust_architect_agent
  else if name = "fullstack-next" then some fullstack_next_agent
  else if name = "qa-testing-squad" then some qa_testing_squad_agent
  else none

/-- Outcome of one registry HTTP GET, the transport boundary of
`src/core/registry.rs`: either the connection fails (reqwest `send()` error)
or a response arrives with a success/non-success status and a body.  The body
is recorded after the serde parsing step relevant to the caller, so `α` is
`Option β` when the caller parses the body and the parse can fail. -/
inductive Fetched (α : Type) where
  | connectFail : Fetched α
  | http (success : Bool) (body : α) : Fetched α

/-- `Registry::fetch_agents` (`src/core/registry.rs` lines 36-57).  The body of
a successful response is the outcome of `response.json::<Vec<AgentInfo>>()`:
`none` when the body does not parse as the manifest. -/
def fetch_agents : Fetched (Option (List AgentInfo)) → Except String (List AgentInfo)
  | .connectFail => .error "Failed to connect to registry"
  | .http false _ => .ok get_builtin_agents
  | .http true none => .error "Failed to parse registry response"
  | .http true (some agents) => .ok agents

/-- `Registry::fetch_skill_as_agent` (`src/core/registry.rs` lines 98-139):
fetch `{base}/{name}/SKILL.md`, parse it, and wrap the skill in a minimal
synthetic agent. -/
def fetch_skill_as_agent (base_url name : String) :
    Fetched String → Except String AgentConfig
  | .connectFail => .error "Failed to connect to registry"
  | .http false _ => .error ("Skill \x27" ++ name ++ "\x27 not found")
  | .http true skill_md =>
    let skill := parse_skill_md name skill_md
    let skill := { skill with remote_base_url := some (base_url ++ "/" ++ name) }
    .ok { name := name,
          version := "1.0.0",
          description := skill.description.getD ("Skill: " ++ name),
          author := "community",
          identity := { model := none, icon := some "📚",
                        system_prompt := "You have the " ++ name ++ " skill installed." },
          skills := [skill],
          mcp := [] }

/-- `Registry::fetch_agent` (`src/core/registry.rs` lines 61-95).  The body of
a successful tier-1 response is the outcome of
`serde_yaml::from_str::<AgentConfig>`: `none` when the descriptor does not
parse as a valid agent. -/
def fetch_agent (name base_url : String)
    (agentResp : Fetched (Option AgentConfig)) (skillResp : Fetched String) :
    Except String AgentConfig :=
  match agentResp with
  | .connectFail => .error "Failed to connect to registry"
  | .http true (some agent) => .ok agent
  | .http true none => .error "Failed to parse agent configuration"
  | .http false _ =>
    match fetch_skill_as_agent base_url name skillResp with
    | .ok agent => .ok agent
    | .error _ =>
      match get_builtin_agent name with
      | some agent => .ok agent
      | none => .error ("Agent or skill \x27" ++ name ++ "\x27 not found in registry")

/-- The model-name shortening in `ClaudeInstaller::generate_agent_markdown`
(`src/installers/claude.rs` lines 80-88): substring match against
`sonnet`, `opus`, `haiku` in that order, identity if none matches. -/
def modelShort (model : String) : String :=
  if containsStr model "sonnet" then "sonnet"
  else if containsStr model "opus" then "opus"
  else if containsStr model "haiku" then "haiku"
  else model

/-- The fixed ordered list of model family names named by the spec. -/
def modelFamilies : List String := ["sonnet", "opus", "haiku"]

/-- Spec-side restatement of model normalization: the first element of
`modelFamilies` occurring as a substring of the identifier, or the full
identifier when none occurs. -/
def firstFamilyMatch (model : String) : String :=
  match modelFamilies.find? (fun fam => containsStr model fam) with
  | some fam => fam
  | none => model

/-- `ClaudeInstaller::generate_agent_markdown` (`src/installers/claude.rs`
lines 75-114): the agent identity document, YAML frontmatter plus the
system prompt. -/
def generate_agent_markdown (agent : AgentConfig) : String :=
  let icon := agent.identity.icon.getD "🤖"
  let model := agent.identity.model.getD "sonnet"
  let model_short := modelShort model
  let skills_list :=
    if agent.skills.isEmpty then ""
    else "\nskills: " ++ String.intercalate ", " (agent.skills.map (fun s => s.name))
  "---\nname: " ++ agent.name ++ "\ndescription: " ++ agent.description ++
    "\nmodel: " ++ model_short ++ "\nicon: " ++ icon ++ skills_list ++
    "\n---\n\n" ++ agent.identity.system_prompt

/-- `ClaudeInstaller::generate_skill_md` (`src/installers/claude.rs` lines
124-161): the per-skill `SKILL.md` document. -/
def generate_skill_md (skill : Skill) : String :=
  let fm := "---\nname: " ++ skill.name ++ "\n"
  let fm := match skill.description with
    | some d => fm ++ "description: " ++ d ++ "\n"
    | none => fm
  let fm := match skill.license with
    | some v => fm ++ "license: " ++ v ++ "\n"
    | none => fm
  let fm := match skill.compatibility with
    | some v => fm ++ "compatibility: " ++ v ++ "\n"
    | none => fm
  let fm := match skill.allowed_tools with
    | some v => fm ++ "allowed-tools: " ++ v ++ "\n"
    | none => fm
  let fm := match skill.dependencies with
    | some v => fm ++ "dependencies: " ++ v ++ "\n"
    | none => fm
  let fm := match skill.metadata with
    | some md =>
      fm ++ "metadata:\n" ++
        String.join (md.map (fun kv => "  " ++ kv.1 ++ ": " ++ kv.2 ++ "\n"))
    | none => fm
  fm ++ "---\n\n" ++ skill.content

/-- `CursorInstaller::generate_mdc_content` (`src/installers/cursor.rs` lines
52-66): an MDC rule document. -/
def generate_mdc_content (name description content : String) : String :=
  "---\ndescription: " ++ description ++ "\nglobs: \nalwaysApply: true\n---\n\n# " ++
    name ++ "\n\n" ++ content ++ "\n"

/-- Filesystem paths as lists of components. -/
abbrev FsPath := List String

/-- A filesystem: a partial map from file paths to file contents.  Directories
are implicit (`create_dir_all` has no further observable effect). -/
abbrev FS := FsPath → Option String

/-- `std::fs::write`: create or overwrite one file. -/
def writeFile (fs : FS) (p : FsPath) (c : String) : FS :=
  fun q => if q = p then some c else fs q

/-- `std::fs::remove_file` (removing a missing file is modelled as the
identity, matching the source's `if path.exists()` guard). -/
def removeFile (fs : FS) (p : FsPath) : FS :=
  fun q => if q = p then none else fs q

/-- `std::fs::remove_dir_all`: delete every file lying under the directory. -/
def removeDirAll (fs : FS) (p : FsPath) : FS :=
  fun q => if p.isPrefixOf q then none else fs q

/-- Base directory of the Claude target (`paths::claude_config_dir`). -/
def claudeBase : FsPath := ["home", ".claude"]

/-- The Claude agent-identity document path,
`{base}/agents/{name}.md` (`ClaudeInstaller::install_identity`). -/
def claudeAgentFile (name : String) : FsPath :=
  claudeBase ++ ["agents", name ++ ".md"]

/-- The Claude per-skill document path, `{base}/skills/{skill}/SKILL.md`
(`ClaudeInstaller::install_skills`). -/
def claudeSkillFile (skill : String) : FsPath :=
  claudeBase ++ ["skills", skill, "SKILL.md"]

/-- The Claude MCP tool-config document path
(`ClaudeInstaller::get_mcp_config_path`, a separate config directory). -/
def claudeMcpConfigFile : FsPath := ["home", ".config", "claude", "config.json"]

/-- `ClaudeInstaller::install_identity` (`src/installers/claude.rs` lines
199-210): write the generated markdown to the agent file. -/
def claudeInstallIdentityFS (fs : FS) (agent : AgentConfig) : FS :=
  writeFile fs (claudeAgentFile agent.name) (generate_agent_markdown agent)

/-- `ClaudeInstaller::install_skills` (`src/installers/claude.rs` lines
212-239): one directory per skill, named after the skill, holding `SKILL.md`.
The auxiliary-subdirectory copy only runs when `source_dir` is set; the
agents reached by the claims all have `source_dir = none`, so it is omitted
from the state model. -/
def claudeInstallSkillsFS (fs : FS) (agent : AgentConfig) : FS :=
  if agent.skills.isEmpty then fs
  else
    agent.skills.foldl
      (fun fs s => writeFile fs (claudeSkillFile s.name) (generate_skill_md s)) fs

/-- `ClaudeInstaller::uninstall` (`src/installers/claude.rs` lines 290-306):
remove `{base}/agents/{name}.md` and the directory `{base}/skills/{name}`;
MCP tools are left untouched. -/
def claudeUninstallFS (fs : FS) (name : String) : FS :=
  removeDirAll (removeFile fs (claudeAgentFile name)) (claudeBase ++ ["skills", name])

/-- Base directory of the Cursor target. -/
def cursorBase : FsPath := ["home", ".cursor"]

/-- `CursorInstaller::install_identity` (`src/installers/cursor.rs` lines
70-87): write the identity MDC rule `{base}/rules/{name}-identity.mdc`. -/
def cursorInstallIdentityFS (fs : FS) (agent : AgentConfig) : FS :=
  let icon := agent.identity.icon.getD "🤖"
  writeFile fs (cursorBase ++ ["rules", agent.name ++ "-identity.mdc"])
    (generate_mdc_content (icon ++ " " ++ agent.name ++ " Agent")
      agent.description agent.identity.system_prompt)

/-- The tool entry rendered by `ClaudeInstaller::install_tools`
(`src/installers/claude.rs` lines 264-269): `{"type": "stdio", "command",
"args", "env"}`. -/
def renderClaudeTool (t : McpTool) : Json :=
  .obj [("type", .str "stdio"),
        ("command", .str t.command),
        ("args", .arr (t.args.map Json.str)),
        ("env", .obj (t.env.map (fun kv => (kv.1, Json.str kv.2))))]

/-- The tool entry rendered by `CursorInstaller::install_tools`
(`src/installers/cursor.rs` lines 134-138): `{"command", "args", "env"}`. -/
def renderCursorTool (t : McpTool) : Json :=
  .obj [("command", .str t.command),
        ("args", .arr (t.args.map Json.str)),
        ("env", .obj (t.env.map (fun kv => (kv.1, Json.str kv.2))))]

/-- The state of the tool-config file as seen by `install_tools`: `none` when
the file does not exist, `some none` when it exists but its contents fail to
parse as JSON, `some (some j)` when it parses to `j`. -/
abbrev ToolConfigFile := Option (Option Json)

/-- Lines 249-254 of `src/installers/claude.rs`: load the existing config,
falling back to `json!({})` when the file is missing or unparseable. -/
def claudeLoadedConfig : ToolConfigFile → Json
  | none => .obj []
  | some none => .obj []
  | some (some j) => j

/-- Lines 120-125 of `src/installers/cursor.rs`: load the existing config,
falling back to `json!({"mcpServers": {}})` when missing or unparseable. -/
def cursorLoadedConfig : ToolConfigFile → Json
  | none => .obj [("mcpServers", .obj [])]
  | some none => .obj [("mcpServers", .obj [])]
  | some (some j) => j

/-- Lines 257-259 of `src/installers/claude.rs` (same in cursor.rs): insert an
empty `mcpServers` object when the key is absent. -/
def ensureMcpServers (config : Json) : Json :=
  if (config.getKey? "mcpServers").isNone then config.setKey "mcpServers" (.obj [])
  else config

/-- `ClaudeInstaller::install_tools` (`src/installers/claude.rs` lines
241-288) at the document level: the JSON document written back for a
nonempty tool list (with an empty list the function returns before reading
or writing the file). -/
def claudeInstallToolsDoc (existing : ToolConfigFile) (tools : List McpTool) : Json :=
  tools.foldl (fun c t => c.setKey2 "mcpServers" t.name (renderClaudeTool t))
    (ensureMcpServers (claudeLoadedConfig existing))

/-- `CursorInstaller::install_tools` (`src/installers/cursor.rs` lines
112-151) at the document level, for a nonempty tool list. -/
def cursorInstallToolsDoc (existing : ToolConfigFile) (tools : List McpTool) : Json :=
  tools.foldl (fun c t => c.setKey2 "mcpServers" t.name (renderCursorTool t))
    (ensureMcpServers (cursorLoadedConfig existing))

/-- The section header `[mcp_servers.<name>]` used by
`CodexInstaller::install_tools` (`src/installers/codex.rs` line 243). -/
def codexToolHeader (t : McpTool) : String :=
  "[mcp_servers." ++ t.name ++ "]"

/-- The TOML section appended by `CodexInstaller::install_tools`
(`src/installers/codex.rs` lines 249-265) for one tool. -/
def codexToolSection (t : McpTool) : String :=
  let sec := "\n" ++ codexToolHeader t ++ "\n" ++
    "command = \"" ++ t.command ++ "\"\n"
  let sec :=
    if t.args.isEmpty then sec
    else sec ++ "args = [" ++
      String.intercalate ", " (t.args.map (fun a => "\"" ++ a ++ "\"")) ++ "]\n"
  if t.env.isEmpty then sec
  else sec ++ "\n[mcp_servers." ++ t.name ++ ".env]\n" ++
    String.join (t.env.map (fun kv => kv.1 ++ " = \"" ++ kv.2 ++ "\"\n"))

/-- One iteration of the tool loop in `CodexInstaller::install_tools`
(`src/installers/codex.rs` lines 241-275): skip the tool when its section
header already occurs in the accumulated content, append its section
otherwise. -/
def codexInstallToolsStep (c : String) (t : McpTool) : String :=
  if containsStr c (codexToolHeader t) then c else c ++ codexToolSection t

/-- `CodexInstaller::install_tools` (`src/installers/codex.rs` lines 215-281)
at the document level: the config.toml contents written back for a nonempty
tool list (an existing file contributes its contents, a missing one the
empty string). -/
def codexInstallTools (existing : String) (tools : List McpTool) : String :=
  tools.foldl codexInstallToolsStep existing

/-- The accumulated tool-servers mapping after installing `tools` into an
existing mapping `m`, key by key (shared shape of the claude/cursor tool
loops). -/
def mergeServers (render : McpTool → Json) (m : List (String × Json))
    (tools : List McpTool) : List (String × Json) :=
  tools.foldl (fun m t => setPair m t.name (render t)) m

theorem getPair_setPair_self (m : List (String × Json)) (k : String) (v : Json) :
    getPair (setPair m k v) k = some v := by
  induction m with
  | nil => simp [setPair, getPair]
  | cons kv rest ih =>
    obtain ⟨k', v'⟩ := kv
    by_cases h : k' = k <;> simp [setPair, getPair, h, ih]

theorem getPair_setPair_of_ne (m : List (String × Json)) (k k' : String) (v : Json)
    (h : k' ≠ k) : getPair (setPair m k v) k' = getPair m k' := by
  induction m with
  | nil => simp [setPair, getPair, Ne.symm h]
  | cons kv rest ih =>
    obtain ⟨k₀, v₀⟩ := kv
    by_cases h0 : k₀ = k
    · subst h0
      simp [setPair, getPair, Ne.symm h]
    · by_cases h1 : k₀ = k'
      · subst h1
        simp [setPair, getPair, h0]
      · simp [setPair, getPair, h0, h1, ih]

theorem setPair_of_getPair_eq (m : List (String × Json)) (k : String) (v : Json)
    (h : getPair m k = some v) : setPair m k v = m := by
  induction m with
  | nil => simp [getPair] at h
  | cons kv rest ih =>
    obtain ⟨k₀, v₀⟩ := kv
    by_cases h0 : k₀ = k
    · subst h0
      simp [getPair] at h
      simp [setPair, h]
    · simp [getPair, h0] at h
      simp [setPair, h0, ih h]

theorem setPair_setPair (m : List (String × Json)) (k : String) (v w : Json) :
    setPair (setPair m k v) k w = setPair m k w := by
  induction m with
  | nil => simp [setPair]
  | cons kv rest ih =>
    obtain ⟨k₀, v₀⟩ := kv
    by_cases h0 : k₀ = k <;> simp [setPair, h0, ih]

theorem foldl_setKey2_obj (render : McpTool → Json) (tools : List McpTool) :
    ∀ (doc m : List (String × Json)),
      getPair doc "mcpServers" = some (Json.obj m) →
      tools.foldl (fun c t => c.setKey2 "mcpServers" t.name (render t)) (Json.obj doc) =
        Json.obj (setPair doc "mcpServers" (Json.obj (mergeServers render m tools))) := by
  induction tools with
  | nil =>
    intro doc m h
    simp [mergeServers, setPair_of_getPair_eq _ _ _ h]
  | cons t ts ih =>
    intro doc m h
    have hstep : (Json.obj doc).setKey2 "mcpServers" t.name (render t) =
        Json.obj (setPair doc "mcpServers" (Json.obj (setPair m t.name (render t)))) := by
      simp [Json.setKey2, Json.getKey?, h, Json.setKey]
    rw [List.foldl_cons, hstep,
      ih _ _ (getPair_setPair_self doc "mcpServers" (Json.obj (setPair m t.name (render t)))),
      setPair_setPair]
    rfl

theorem mergeServers_getPair_of_not_mem (render : McpTool → Json)
    (tools : List McpTool) :
    ∀ (m : List (String × Json)) (k : String), k ∉ tools.map McpTool.name →
      getPair (mergeServers render m tools) k = getPair m k := by
  induction tools with
  | nil => intro m k _; rfl
  | cons t ts ih =>
    intro m k hk
    simp only [List.map_cons, List.mem_cons, not_or] at hk
    calc getPair (mergeServers render (setPair m t.name (render t)) ts) k
        = getPair (setPair m t.name (render t)) k := ih _ _ hk.2
      _ = getPair m k := getPair_setPair_of_ne _ _ _ _ hk.1

theorem mergeServers_getPair_of_mem (render : McpTool → Json) :
    ∀ (tools : List McpTool) (m : List (String × Json)) (t : McpTool),
      t ∈ tools → (tools.map McpTool.name).Nodup →
      getPair (mergeServers render m tools) t.name = some (render t) := by
  intro tools
  induction tools with
  | nil => intro m t ht; exact absurd ht (List.not_mem_nil t)
  | cons t0 ts ih =>
    intro m t ht hnd
    simp only [List.map_cons, List.nodup_cons] at hnd
    rcases List.mem_cons.mp ht with rfl | hts
    · have : t.name ∉ ts.map McpTool.name := hnd.1
      calc getPair (mergeServers render (setPair m t.name (render t)) ts) t.name
          = getPair (setPair m t.name (render t)) t.name :=
            mergeServers_getPair_of_not_mem render ts _ _ this
        _ = some (render t) := getPair_setPair_self _ _ _
    · exact ih _ t hts hnd.2

/-- C1: for the JSON tool-config targets (Claude, Cursor), `install_tools` is
a non-destructive merge on any parseable existing document whose
tool-servers mapping is an object (or absent): the written document keeps
every top-level key of the existing document except `mcpServers`, whose new
value keeps every entry not named by an installed tool unchanged and maps
each installed tool's name to that tool's rendered entry. -/
theorem install_tools_nondestructive_merge
    (doc m : List (String × Json)) (tools : List McpTool)
    (hm : getPair doc "mcpServers" = some (Json.obj m) ∨
          (getPair doc "mcpServers" = none ∧ m = []))
    (hnodup : (tools.map McpTool.name).Nodup) :
    ∃ mc mu : List (String × Json),
      claudeInstallToolsDoc (some (some (Json.obj doc))) tools =
        Json.obj (setPair doc "mcpServers" (Json.obj mc)) ∧
      cursorInstallToolsDoc (some (some (Json.obj doc))) tools =
        Json.obj (setPair doc "mcpServers" (Json.obj mu)) ∧
      (∀ k, k ∉ tools.map McpTool.name →
        getPair mc k = getPair m k ∧ getPair mu k = getPair m k) ∧
      (∀ t ∈ tools,
        getPair mc t.name = some (renderClaudeTool t) ∧
        getPair mu t.name = some (renderCursorTool t)) := by
  refine ⟨mergeServers renderClaudeTool m tools, mergeServers renderCursorTool m tools,
    ?_, ?_, ?_, ?_⟩
  · show (tools.foldl (fun c t => c.setKey2 "mcpServers" t.name (renderClaudeTool t))
      (ensureMcpServers (claudeLoadedConfig (some (some (Json.obj doc)))))) = _
    rcases hm with h | ⟨h, rfl⟩
    · have he : ensureMcpServers (Json.obj doc) = Json.obj doc := by
        simp [ensureMcpServers, Json.getKey?, h]
      rw [show claudeLoadedConfig (some (some (Json.obj doc))) = Json.obj doc from rfl, he]
      exact foldl_setKey2_obj _ _ _ _ h
    · have he : ensureMcpServers (Json.obj doc) =
          Json.obj (setPair doc "mcpServers" (Json.obj [])) := by
        simp [ensureMcpServers, Json.getKey?, h, Json.setKey]
      rw [show claudeLoadedConfig (some (some (Json.obj doc))) = Json.obj doc from rfl, he,
        foldl_setKey2_obj _ _ _ _ (getPair_setPair_self doc "mcpServers" (Json.obj [])),
        setPair_setPair]
  · show (tools.foldl (fun c t => c.setKey2 "mcpServers" t.name (renderCursorTool t))
      (ensureMcpServers (cursorLoadedConfig (some (some (Json.obj doc)))))) = _
    rcases hm with h | ⟨h, rfl⟩
    · have he : ensureMcpServers (Json.obj doc) = Json.obj doc := by
        simp [ensureMcpServers, Json.getKey?, h]
      rw [show cursorLoadedConfig (some (some (Json.obj doc))) = Json.obj doc from rfl, he]
      exact foldl_setKey2_obj _ _ _ _ h
    · have he : ensureMcpServers (Json.obj doc) =
          Json.obj (setPair doc "mcpServers" (Json.obj [])) := by
        simp [ensureMcpServers, Json.getKey?, h, Json.setKey]
      rw [show cursorLoadedConfig (some (some (Json.obj doc))) = Json.obj doc from rfl, he,
        foldl_setKey2_obj _ _ _ _ (getPair_setPair_self doc "mcpServers" (Json.obj [])),
        setPair_setPair]
  · intro k hk
    exact ⟨mergeServers_getPair_of_not_mem _ _ _ _ hk,
      mergeServers_getPair_of_not_mem _ _ _ _ hk⟩
  · intro t ht
    exact ⟨mergeServers_getPair_of_mem _ _ _ _ ht hnodup,
      mergeServers_getPair_of_mem _ _ _ _ ht hnodup⟩

/-- Witness for C1: the spec's own scenario — an existing document with keys
`A` and `B`, installing a single tool named `B` with a different command:
`A` is preserved unchanged and `B` is overwritten with the new entry. -/
theorem install_tools_nondestructive_merge_witness :
    ∃ mc mu : List (String × Json),
      claudeInstallToolsDoc
        (some (some (Json.obj [("mcpServers",
          Json.obj [("A", Json.str "entryA"), ("B", Json.str "oldB")])])))
        [{ name := "B", command := "new-cmd" }] =
        Json.obj (setPair [("mcpServers",
          Json.obj [("A", Json.str "entryA"), ("B", Json.str "oldB")])]
          "mcpServers" (Json.obj mc)) ∧
      cursorInstallToolsDoc
        (some (some (Json.obj [("mcpServers",
          Json.obj [("A", Json.str "entryA"), ("B", Json.str "oldB")])])))
        [{ name := "B", command := "new-cmd" }] =
        Json.obj (setPair [("mcpServers",
          Json.obj [("A", Json.str "entryA"), ("B", Json.str "oldB")])]
          "mcpServers" (Json.obj mu)) ∧
      (∀ k, k ∉ ([{ name := "B", command := "new-cmd" }] : List McpTool).map McpTool.name →
        getPair mc k = getPair [("A", Json.str "entryA"), ("B", Json.str "oldB")] k ∧
        getPair mu k = getPair [("A", Json.str "entryA"), ("B", Json.str "oldB")] k) ∧
      (∀ t ∈ ([{ name := "B", command := "new-cmd" }] : List McpTool),
        getPair mc t.name = some (renderClaudeTool t) ∧
        getPair mu t.name = some (renderCursorTool t)) :=
  install_tools_nondestructive_merge
    [("mcpServers", Json.obj [("A", Json.str "entryA"), ("B", Json.str "oldB")])]
    [("A", Json.str "entryA"), ("B", Json.str "oldB")]
    [{ name := "B", command := "new-cmd" }]
    (Or.inl rfl) (by simp)

/-- C10: when the existing tool-config file is present but unparseable, both
JSON installers silently restart from scratch: the written document is
exactly the freshly-created structure holding the newly installed tools —
identical to the document produced when no file existed at all — and the
unparseable content does not influence the result. -/
theorem install_tools_unparseable_resets (tools : List McpTool)
    (h : tools ≠ []) :
    claudeInstallToolsDoc (some none) tools =
      Json.obj [("mcpServers", Json.obj (mergeServers renderClaudeTool [] tools))] ∧
    claudeInstallToolsDoc (some none) tools = claudeInstallToolsDoc none tools ∧
    cursorInstallToolsDoc (some none) tools =
      Json.obj [("mcpServers", Json.obj (mergeServers renderCursorTool [] tools))] ∧
    cursorInstallToolsDoc (some none) tools = cursorInstallToolsDoc none tools := by
  refine ⟨?_, rfl, ?_, rfl⟩
  · show (tools.foldl (fun c t => c.setKey2 "mcpServers" t.name (renderClaudeTool t))
      (ensureMcpServers (claudeLoadedConfig (some none)))) = _
    rw [show ensureMcpServers (claudeLoadedConfig (some none)) =
      Json.obj [("mcpServers", Json.obj [])] from rfl,
      foldl_setKey2_obj _ tools [("mcpServers", Json.obj [])] [] (by simp [getPair])]
    rfl
  · show (tools.foldl (fun c t => c.setKey2 "mcpServers" t.name (renderCursorTool t))
      (ensureMcpServers (cursorLoadedConfig (some none)))) = _
    rw [show ensureMcpServers (cursorLoadedConfig (some none)) =
      Json.obj [("mcpServers", Json.obj [])] from rfl,
      foldl_setKey2_obj _ tools [("mcpServers", Json.obj [])] [] (by simp [getPair])]
    rfl

/-- Witness for C10 at a concrete nonempty tool list. -/
theorem install_tools_unparseable_resets_witness :
    claudeInstallToolsDoc (some none) [{ name := "B", command := "new-cmd" }] =
      Json.obj [("mcpServers", Json.obj (mergeServers renderClaudeTool []
        [{ name := "B", command := "new-cmd" }]))] ∧
    claudeInstallToolsDoc (some none) [{ name := "B", command := "new-cmd" }] =
      claudeInstallToolsDoc none [{ name := "B", command := "new-cmd" }] ∧
    cursorInstallToolsDoc (some none) [{ name := "B", command := "new-cmd" }] =
      Json.obj [("mcpServers", Json.obj (mergeServers renderCursorTool []
        [{ name := "B", command := "new-cmd" }]))] ∧
    cursorInstallToolsDoc (some none) [{ name := "B", command := "new-cmd" }] =
      cursorInstallToolsDoc none [{ name := "B", command := "new-cmd" }] :=
  install_tools_unparseable_resets [{ name := "B", command := "new-cmd" }] (by simp)

/-- C9: for every model identifier, the label rendered into the Claude
identity document is the first element of the fixed ordered family list
`sonnet, opus, haiku` occurring as a substring of the identifier, and the
full identifier unchanged when none occurs. -/
theorem claude_model_normalization (model : String) :
    modelShort model = firstFamilyMatch model := by
  unfold modelShort firstFamilyMatch modelFamilies
  cases h1 : containsStr model "sonnet" <;>
    cases h2 : containsStr model "opus" <;>
      cases h3 : containsStr model "haiku" <;>
        simp [List.find?, h1, h2, h3]

/-- C8: `install_identity` is idempotent for both targets that implement it:
a second run with the same agent writes the same bytes to the same file and
leaves the filesystem in the same observable state as the first run. -/
theorem install_identity_idempotent (fs : FS) (agent : AgentConfig) :
    claudeInstallIdentityFS (claudeInstallIdentityFS fs agent) agent =
      claudeInstallIdentityFS fs agent ∧
    cursorInstallIdentityFS (cursorInstallIdentityFS fs agent) agent =
      cursorInstallIdentityFS fs agent := by
  constructor <;>
    · funext q
      simp only [claudeInstallIdentityFS, cursorInstallIdentityFS, writeFile]
      split <;> rfl

/-- Counterexample to C2 as stated: a connection failure is propagated as an
error by `fetch_agents`; it does not fall back to the built-in table. -/
theorem fetch_agents_connect_failure_errors :
    fetch_agents Fetched.connectFail =
      Except.error "Failed to connect to registry" ∧
    fetch_agents (Fetched.http true none) =
      Except.error "Failed to parse registry response" :=
  ⟨rfl, rfl⟩

/-- C2 (amended): `fetch_agents` falls back to the built-in agent-summary
table, whose length is at least 1, exactly when the registry responds with a
non-2xx status; a connection failure or a manifest body that fails to parse
is propagated to the caller as an error. -/
theorem fetch_agents_fallback_on_non2xx :
    (∀ body : Option (List AgentInfo),
      fetch_agents (Fetched.http false body) = Except.ok get_builtin_agents) ∧
    1 ≤ get_builtin_agents.length ∧
    fetch_agents Fetched.connectFail =
      Except.error "Failed to connect to registry" ∧
    fetch_agents (Fetched.http true none) =
      Except.error "Failed to parse registry response" ∧
    (∀ agents, fetch_agents (Fetched.http true (some agents)) = Except.ok agents) :=
  ⟨fun _ => rfl, by simp [get_builtin_agents], rfl, rfl, fun _ => rfl⟩

/-- Counterexample to C3 as stated: a retrievable tier-1 document that fails
to parse as a valid Agent makes `fetch_agent` fail immediately with a parse
error, even though tier 2 would succeed on the same inputs and the name is
in the built-in table. -/
theorem fetch_agent_tier1_parse_failure_aborts :
    fetch_agent "rust-architect" "https://reg.example"
      (Fetched.http true none) (Fetched.http true "skill body") =
      Except.error "Failed to parse agent configuration" ∧
    (fetch_skill_as_agent "https://reg.example" "rust-architect"
      (Fetched.http true "skill body")).isOk = true ∧
    (get_builtin_agent "rust-architect").isSome = true :=
  ⟨rfl, rfl, rfl⟩

/-- C3 (amended): resolution proceeds to tier 2 only when the tier-1
response is retrievable but unsuccessful (non-2xx); a retrievable tier-1
document that does not parse as a valid Agent aborts resolution with a parse
error.  After a non-2xx tier 1, a tier-2 success is returned, otherwise the
built-in table is consulted, and only when that also fails is an error
returned — an error that names the requested identifier. -/
theorem fetch_agent_tier_order (name base_url : String)
    (b : Option AgentConfig) (skillResp : Fetched String) :
    (∀ agent, fetch_agent name base_url (Fetched.http true (some agent)) skillResp =
      Except.ok agent) ∧
    (fetch_agent name base_url (Fetched.http true none) skillResp =
      Except.error "Failed to parse agent configuration") ∧
    (∀ a2, fetch_skill_as_agent base_url name skillResp = Except.ok a2 →
      fetch_agent name base_url (Fetched.http false b) skillResp = Except.ok a2) ∧
    (∀ e a3, fetch_skill_as_agent base_url name skillResp = Except.error e →
      get_builtin_agent name = some a3 →
      fetch_agent name base_url (Fetched.http false b) skillResp = Except.ok a3) ∧
    (∀ e, fetch_skill_as_agent base_url name skillResp = Except.error e →
      get_builtin_agent name = none →
      fetch_agent name base_url (Fetched.http false b) skillResp =
        Except.error ("Agent or skill \x27" ++ name ++ "\x27 not found in registry")) := by
  refine ⟨fun _ => rfl, rfl, ?_, ?_, ?_⟩
  · intro a2 h
    simp [fetch_agent, h]
  · intro e a3 h hb
    simp [fetch_agent, h, hb]
  · intro e h hb
    simp [fetch_agent, h, hb]

/-- Witness for C3 (amended), at a name outside the built-in table and a
tier-2 connection failure: the final error names the identifier. -/
theorem fetch_agent_tier_order_witness :
    fetch_agent "no-such-agent" "https://reg.example"
      (Fetched.http false none) Fetched.connectFail =
      Except.error ("Agent or skill \x27no-such-agent\x27 not found in registry") :=
  (fetch_agent_tier_order "no-such-agent" "https://reg.example"
    none Fetched.connectFail).2.2.2.2 "Failed to connect to registry" rfl rfl

/-- The filesystem after `ClaudeInstaller` installed the built-in
`rust-architect` agent (identity, then skills) into an empty filesystem. -/
def rustArchitectInstalledFS : FS :=
  claudeInstallSkillsFS
    (claudeInstallIdentityFS (fun _ => none) rust_architect_agent)
    rust_architect_agent

/-- The filesystem after `ClaudeInstaller::uninstall "rust-architect"` runs
on `rustArchitectInstalledFS`. -/
def rustArchitectUninstalledFS : FS :=
  claudeUninstallFS rustArchitectInstalledFS "rust-architect"

/-- C4 evaluated at the failing input: uninstalling `rust-architect` removes
the identity document and leaves the tool-config path untouched, but the two
skill documents written by `install_skills` (`skills/tokio-patterns/SKILL.md`
and `skills/error-handling/SKILL.md`) survive, because `uninstall` removes
the directory `skills/rust-architect`, which `install_skills` never wrote. -/
theorem claude_uninstall_misses_skill_artifacts :
    rustArchitectUninstalledFS (claudeAgentFile "rust-architect") = none ∧
    (rustArchitectInstalledFS (claudeSkillFile "tokio-patterns")).isSome = true ∧
    (rustArchitectUninstalledFS (claudeSkillFile "tokio-patterns")).isSome = true ∧
    (rustArchitectUninstalledFS (claudeSkillFile "error-handling")).isSome = true ∧
    rustArchitectUninstalledFS (claudeSkillFile "tokio-patterns") =
      rustArchitectInstalledFS (claudeSkillFile "tokio-patterns") ∧
    rustArchitectUninstalledFS claudeMcpConfigFile =
      rustArchitectInstalledFS claudeMcpConfigFile :=
  ⟨rfl, rfl, rfl, rfl, rfl, rfl⟩

theorem findSub_isSome_iff (pat : List Char) :
    ∀ l : List Char, (findSub pat l).isSome = true ↔ pat <:+: l := by
  intro l
  induction l with
  | nil =>
    cases pat <;> simp [findSub]
  | cons c rest ih =>
    by_cases h : pat.isPrefixOf (c :: rest)
    · have hp : pat <+: c :: rest := List.isPrefixOf_iff_prefix.mp h
      simp [findSub, h, hp.isInfix]
    · have hp : ¬ pat <+: c :: rest := fun hc => h (List.isPrefixOf_iff_prefix.mpr hc)
      simp only [findSub, h, Bool.false_eq_true, if_false]
      have hmap : (Option.map (fun x => x + 1) (findSub pat rest)).isSome =
          (findSub pat rest).isSome := by
        cases findSub pat rest <;> rfl
      rw [hmap, ih, List.infix_cons_iff]
      simp [hp]

theorem containsStr_iff (s pat : String) :
    containsStr s pat = true ↔ pat.data <:+: s.data :=
  findSub_isSome_iff pat.data s.data

theorem codexInstallToolsStep_skip (c : String) (t : McpTool)
    (h : (codexToolHeader t).data <:+: c.data) :
    codexInstallToolsStep c t = c := by
  simp [codexInstallToolsStep, (containsStr_iff c (codexToolHeader t)).mpr h]

theorem codexInstallToolsStep_extends (c : String) (t : McpTool) :
    c.data <+: (codexInstallToolsStep c t).data := by
  unfold codexInstallToolsStep
  split
  · exact List.prefix_refl _
  · rw [String.data_append]
    exact List.prefix_append _ _

theorem codexInstallTools_extends (tools : List McpTool) :
    ∀ c : String, c.data <+: (codexInstallTools c tools).data := by
  induction tools with
  | nil => intro c; exact List.prefix_refl _
  | cons t ts ih =>
    intro c
    exact (codexInstallToolsStep_extends c t).trans (ih (codexInstallToolsStep c t))

/-- C5: for the sectioned-text (TOML) target, `install_tools` never modifies
existing content (the existing document is a prefix of the written one), a
tool whose section header already occurs in the existing document is skipped
entirely — even when the in-memory definition differs, removing it from the
tool list leaves the written document unchanged — and a tool whose header is
absent has its rendered section appended. -/
theorem codex_install_tools_skip_if_present (doc : String) (tools : List McpTool) :
    doc.data <+: (codexInstallTools doc tools).data ∧
    (∀ pre t post, tools = pre ++ t :: post →
      (codexToolHeader t).data <:+: doc.data →
      codexInstallTools doc tools = codexInstallTools doc (pre ++ post)) ∧
    (∀ t, ¬ (codexToolHeader t).data <:+: doc.data →
      codexInstallTools doc [t] = doc ++ codexToolSection t) := by
  refine ⟨codexInstallTools_extends tools doc, ?_, ?_⟩
  · rintro pre t post rfl h
    unfold codexInstallTools
    rw [List.foldl_append, List.foldl_append, List.foldl_cons,
      codexInstallToolsStep_skip (List.foldl codexInstallToolsStep doc pre) t
        (h.trans (codexInstallTools_extends pre doc).isInfix)]
  · intro t h
    have : containsStr doc (codexToolHeader t) = false := by
      rcases hc : containsStr doc (codexToolHeader t) with _ | _
      · rfl
      · exact absurd ((containsStr_iff _ _).mp hc) h
    simp [codexInstallTools, codexInstallToolsStep, this]

/-- Witness for C5: a config.toml that already holds a `context7` section is
left byte-for-byte unchanged when a differing `context7` tool is installed,
and on an empty config the section is appended. -/
theorem codex_install_tools_skip_if_present_witness :
    codexInstallTools "[mcp_servers.context7]\ncommand = \"old\"\n"
      [{ name := "context7", command := "different" }] =
      "[mcp_servers.context7]\ncommand = \"old\"\n" ∧
    codexInstallTools ""
      [{ name := "context7", command := "different" }] =
      "" ++ codexToolSection { name := "context7", command := "different" } := by
  constructor
  · have h := (codex_install_tools_skip_if_present
      "[mcp_servers.context7]\ncommand = \"old\"\n"
      [{ name := "context7", command := "different" }]).2.1
      [] { name := "context7", command := "different" } [] rfl
      ⟨[], "\ncommand = \"old\"\n".data, by rfl⟩
    simpa [codexInstallTools] using h
  · exact (codex_install_tools_skip_if_present ""
      [{ name := "context7", command := "different" }]).2.2
      { name := "context7", command := "different" }
      (by decide)

theorem plainChar_ne_nl (c : Char) (h : plainChar c = true) : c ≠ '\n' := by
  intro hc
  rw [hc] at h
  exact absurd h (by decide)

theorem plainChar_not_ws (c : Char) (h : plainChar c = true) : isRustWs c = false := by
  cases hws : isRustWs c
  · rfl
  · exfalso
    have hmem : c ∈ rustWsChars := by
      simpa [isRustWs] using hws
    fin_cases hmem <;> revert h <;> decide

theorem plainChar_not_spacetab (c : Char) (h : plainChar c = true) :
    isSpaceTab c = false := by
  cases hws : isSpaceTab c
  · rfl
  · exfalso
    simp only [isSpaceTab, Bool.or_eq_true, decide_eq_true_eq] at hws
    rcases hws with rfl | rfl <;> exact absurd h (by decide)

theorem splitLines_no_nl : ∀ l : List Char, (∀ c ∈ l, c ≠ '\n') →
    splitLines l = [l] := by
  intro l
  induction l with
  | nil => intro _; rfl
  | cons c t ih =>
    intro h
    have hc : c ≠ '\n' := h c (List.mem_cons_self c t)
    have ht := ih (fun x hx => h x (List.mem_cons_of_mem c hx))
    simp [splitLines, hc, ht]

theorem valTrim_plain (X : List Char) (hne : X ≠ []) (hX : X.all plainChar = true) :
    valTrim (' ' :: X) = X := by
  have hmem : ∀ c ∈ X, plainChar c = true := by
    simpa [List.all_eq_true] using hX
  have h1 : (' ' :: X).dropWhile isSpaceTab = X := by
    cases X with
    | nil => exact absurd rfl hne
    | cons c t =>
      have hc := plainChar_not_spacetab c (hmem c (List.mem_cons_self c t))
      simp [List.dropWhile_cons, hc, show isSpaceTab ' ' = true from rfl]
  have h2 : X.reverse.dropWhile isSpaceTab = X.reverse := by
    cases hrev : X.reverse with
    | nil => rfl
    | cons c t =>
      have hcX : c ∈ X := by
        have hm : c ∈ X.reverse := by
          rw [hrev]; exact List.mem_cons_self c t
        simpa [List.mem_reverse] using hm
      have hc := plainChar_not_spacetab c (hmem c hcX)
      simp [List.dropWhile_cons, hc]
  unfold valTrim
  rw [h1, h2, List.reverse_reverse]

theorem dropWhile_reverse_plain (pre X : List Char) (hne : X ≠ [])
    (hmem : ∀ c ∈ X, plainChar c = true) :
    (pre ++ X).reverse.dropWhile isRustWs = (pre ++ X).reverse := by
  rw [List.reverse_append]
  cases hrev : X.reverse with
  | nil => exact absurd (by simpa using hrev) hne
  | cons c t =>
    have hcX : c ∈ X := by
      have hm : c ∈ X.reverse := by
        rw [hrev]; exact List.mem_cons_self c t
      simpa [List.mem_reverse] using hm
    have hc := plainChar_not_ws c (hmem c hcX)
    simp [List.cons_append, List.dropWhile_cons, hc]

theorem parseYamlLine_name (X : List Char) (hne : X ≠ [])
    (hX : X.all plainChar = true) :
    parseYamlLine ("name: ".data ++ X) = some ("name", ⟨X⟩) := by
  have hval : valTrim (' ' :: X) = X := valTrim_plain X hne hX
  have hred : parseYamlLine ("name: ".data ++ X) =
      if ("name".data.all plainChar && (valTrim (' ' :: X)).all plainChar) = true
      then some ((⟨"name".data⟩ : String), (⟨valTrim (' ' :: X)⟩ : String))
      else none := rfl
  rw [hred, hval, show "name".data.all plainChar = true from rfl, hX]
  rfl

theorem findSub_nl_skip (p : List Char) :
    ∀ (l₁ l₂ : List Char), (∀ c ∈ l₁, c ≠ '\n') →
      findSub ('\n' :: p) (l₁ ++ l₂) =
        (findSub ('\n' :: p) l₂).map (· + l₁.length) := by
  intro l₁
  induction l₁ with
  | nil =>
    intro l₂ _
    rw [List.nil_append]
    cases findSub ('\n' :: p) l₂ <;> simp
  | cons c t ih =>
    intro l₂ h
    have hc : ('\n' == c) = false :=
      beq_eq_false_iff_ne.mpr (Ne.symm (h c (List.mem_cons_self c t)))
    have ht := ih l₂ (fun x hx => h x (List.mem_cons_of_mem c hx))
    have hpre : (('\n' :: p).isPrefixOf (c :: (t ++ l₂))) = false := by
      simp [List.isPrefixOf, hc]
    rw [List.cons_append, findSub, hpre]
    simp only [Bool.false_eq_true, if_false, ht]
    cases findSub ('\n' :: p) l₂ <;> simp <;> omega

theorem skillSplitParts_dashes (rest : List Char) :
    skillSplitParts ('-' :: '-' :: '-' ::rest) =
      ((findSub "\n---".data rest).orElse
          (fun _ => findSub "\r\n---".data rest)).map
        (fun idx =>
          (rustTrim (rest.take idx),
           if idx + 4 < rest.length then
             (rest.drop (idx + 4)).dropWhile (fun c => c = '\n' || c = '\r')
           else [])) := by
  unfold skillSplitParts
  rw [show ("---".data.isPrefixOf ('-' :: '-' :: '-' ::rest)) = true from by
    simp [List.isPrefixOf_cons₂, List.isPrefixOf_nil_left], if_pos rfl]
  rfl

theorem skillSplitParts_frontmatter (X BODY : List Char) (hne : X ≠ [])
    (hX : X.all plainChar = true)
    (hB1 : BODY.head? ≠ some '\n') (hB2 : BODY.head? ≠ some '\r') :
    skillSplitParts ("---\nname: ".data ++ X ++ "\n---\n".data ++ BODY) =
      some ("name: ".data ++ X, BODY) := by
  have hmem : ∀ c ∈ X, plainChar c = true := by
    simpa [List.all_eq_true] using hX
  have hdoc : "---\nname: ".data ++ X ++ "\n---\n".data ++ BODY =
      '-' :: '-' :: '-' ::('\n' :: (("name: ".data ++ X) ++
        ('\n' :: '-' :: '-' :: '-' ::('\n' :: BODY)))) := by
    simp
  have hmidnl : ∀ c ∈ "name: ".data ++ X, c ≠ '\n' := by
    intro c hc
    rcases List.mem_append.mp hc with hin | hin
    · exact (by decide : ∀ c ∈ "name: ".data, c ≠ '\n') c hin
    · exact plainChar_ne_nl c (hmem c hin)
  have hfind : findSub "\n---".data
      ('\n' :: (("name: ".data ++ X) ++ ('\n' :: '-' :: '-' :: '-' ::('\n' :: BODY)))) =
      some (("name: ".data ++ X).length + 1) := by
    have hstep : findSub "\n---".data
        ('\n' :: (("name: ".data ++ X) ++ ('\n' :: '-' :: '-' :: '-' ::('\n' :: BODY)))) =
        (findSub ('\n' :: "---".data)
          (("name: ".data ++ X) ++ ('\n' :: '-' :: '-' :: '-' ::('\n' :: BODY)))).map
            (· + 1) := rfl
    rw [hstep, findSub_nl_skip "---".data ("name: ".data ++ X)
        ('\n' :: '-' :: '-' :: '-' ::('\n' :: BODY)) hmidnl,
      show findSub ('\n' :: "---".data) ('\n' :: '-' :: '-' :: '-' ::('\n' :: BODY)) =
        some 0 from rfl]
    simp
  have htake : (('\n' :: (("name: ".data ++ X) ++
      ('\n' :: '-' :: '-' :: '-' ::('\n' :: BODY)))).take
        (("name: ".data ++ X).length + 1)) = '\n' :: ("name: ".data ++ X) := by
    rw [show ('\n' :: (("name: ".data ++ X) ++ ('\n' :: '-' :: '-' :: '-' ::('\n' :: BODY)))) =
      ('\n' :: ("name: ".data ++ X)) ++ ('\n' :: '-' :: '-' :: '-' ::('\n' :: BODY))
      from by simp]
    exact List.take_left' (by simp)
  have htrim : rustTrim ('\n' :: ("name: ".data ++ X)) = "name: ".data ++ X := by
    unfold rustTrim
    have hd : ('\n' :: ("name: ".data ++ X)).dropWhile isRustWs =
        "name: ".data ++ X := by
      rw [show "name: ".data ++ X = 'n' :: ("ame: ".data ++ X) from rfl]
      simp [List.dropWhile_cons, show isRustWs '\n' = true from rfl,
        show isRustWs 'n' = false from rfl]
    rw [hd, dropWhile_reverse_plain "name: ".data X hne hmem, List.reverse_reverse]
  have hlen : (("name: ".data ++ X).length + 1) + 4 <
      ('\n' :: (("name: ".data ++ X) ++
        ('\n' :: '-' :: '-' :: '-' ::('\n' :: BODY)))).length := by
    simp
    omega
  have hdrop : (('\n' :: (("name: ".data ++ X) ++
      ('\n' :: '-' :: '-' :: '-' ::('\n' :: BODY)))).drop
        ((("name: ".data ++ X).length + 1) + 4)) = '\n' :: BODY := by
    rw [show ('\n' :: (("name: ".data ++ X) ++ ('\n' :: '-' :: '-' :: '-' ::('\n' :: BODY)))) =
      (('\n' :: ("name: ".data ++ X)) ++ ['\n','-','-','-']) ++ ('\n' :: BODY)
      from by simp]
    exact List.drop_left' (by simp)
  have hbody : (('\n' :: BODY).dropWhile (fun c => c = '\n' || c = '\r')) = BODY := by
    rw [List.dropWhile_cons]
    simp only [decide_True, Bool.true_or, if_true]
    cases BODY with
    | nil => rfl
    | cons c t =>
      have hc1 : c ≠ '\n' := by
        intro hcc
        exact hB1 (by rw [List.head?_cons, hcc])
      have hc2 : c ≠ '\r' := by
        intro hcc
        exact hB2 (by rw [List.head?_cons, hcc])
      simp [List.dropWhile_cons, hc1, hc2]
  rw [hdoc, skillSplitParts_dashes, hfind,
    show (Option.orElse (some (("name: ".data ++ X).length + 1))
      (fun _ => findSub "\r\n---".data
        ('\n' :: (("name: ".data ++ X) ++ ('\n' :: '-' :: '-' :: '-' ::('\n' :: BODY)))))) =
      some (("name: ".data ++ X).length + 1) from rfl,
    Option.map_some']
  rw [htake, htrim, if_pos hlen, hdrop, hbody]

theorem parse_skill_md_split_some (name content : String) (fm body : List Char)
    (h : skillSplitParts content.data = some (fm, body)) :
    parse_skill_md name content =
      (let skill :=
        match parseSkillYaml ⟨fm⟩ with
        | some s => s
        | none => { name := name : Skill }
       let skill := { skill with content := (⟨body⟩ : String) }
       if skill.name = "" then { skill with name := name } else skill) := by
  unfold parse_skill_md
  rw [h]

theorem parseSkillYaml_name (X : List Char) (hne : X ≠ [])
    (hX : X.all plainChar = true) :
    parseSkillYaml ⟨"name: ".data ++ X⟩ = some { name := (⟨X⟩ : String) } := by
  have hmem : ∀ c ∈ X, plainChar c = true := by
    simpa [List.all_eq_true] using hX
  have hmidnl : ∀ c ∈ "name: ".data ++ X, c ≠ '\n' := by
    intro c hc
    rcases List.mem_append.mp hc with hin | hin
    · exact (by decide : ∀ c ∈ "name: ".data, c ≠ '\n') c hin
    · exact plainChar_ne_nl c (hmem c hin)
  unfold parseSkillYaml
  rw [show (⟨"name: ".data ++ X⟩ : String).data = "name: ".data ++ X from rfl,
    splitLines_no_nl ("name: ".data ++ X) hmidnl,
    show (["name: ".data ++ X].filter (fun l => ¬ l.isEmpty)) =
      ["name: ".data ++ X] from rfl]
  simp only [List.mapM_cons, List.mapM_nil, parseYamlLine_name X hne hX]
  rfl

/-- C6: a skill document of the shape `---\nname: X\n---\nBODY` parses to a
skill named `X` whose content is `BODY` and whose remaining fields are the
defaults.  `X` ranges over nonempty plain-scalar names and `BODY` over bodies
not starting with a newline (the leading newline after the closing delimiter
is stripped). -/
theorem parse_skill_md_frontmatter (req X BODY : String)
    (hne : X.data ≠ []) (hX : X.data.all plainChar = true)
    (hB1 : BODY.data.head? ≠ some '\n') (hB2 : BODY.data.head? ≠ some '\r') :
    parse_skill_md req ("---\nname: " ++ X ++ "\n---\n" ++ BODY) =
      { name := X, content := BODY } := by
  have hdata : ("---\nname: " ++ X ++ "\n---\n" ++ BODY).data =
      "---\nname: ".data ++ X.data ++ "\n---\n".data ++ BODY.data := by
    simp [String.data_append]
  have hXne : X ≠ "" := by
    intro hh
    rw [hh] at hne
    exact hne rfl
  rw [parse_skill_md_split_some req _ ("name: ".data ++ X.data) BODY.data
    (by rw [hdata]; exact skillSplitParts_frontmatter X.data BODY.data hne hX hB1 hB2)]
  rw [parseSkillYaml_name X.data hne hX]
  show (if (⟨X.data⟩ : String) = "" then _ else _) = _
  rw [if_neg (by simpa using hXne)]

/-- Witness for C6 at the concrete document `---\nname: myskill\n---\nThe body`. -/
theorem parse_skill_md_frontmatter_witness :
    parse_skill_md "req" "---\nname: myskill\n---\nThe body" =
      { name := "myskill", content := "The body" } := by
  have h := parse_skill_md_frontmatter "req" "myskill" "The body"
    (by decide) (by decide) (by decide) (by decide)
  simpa using h

/-- Counterexample to C7 as stated: for a document whose frontmatter is
present between delimiters but malformed (`---\nmalformed\n---\nBODY`),
`parse_skill_md` does not yield the entire input document as content — it
yields only the body after the closing delimiter. -/
theorem parse_skill_md_malformed_counterexample :
    (parse_skill_md "req" "---\nmalformed\n---\nBODY").content = "BODY" ∧
    (parse_skill_md "req" "---\nmalformed\n---\nBODY").content ≠
      "---\nmalformed\n---\nBODY" ∧
    (parse_skill_md "req" "---\nmalformed\n---\nBODY").name = "req" := by
  refine ⟨by decide, by decide, by decide⟩

/-- C7 (amended): when the document lacks the leading `---` delimiter or has
no closing delimiter, `parse_skill_md` yields the entire document as content
with all other fields defaulted and the requested identifier as name; when
the frontmatter is present between delimiters but fails to parse, the other
fields are likewise defaulted and the name is the requested identifier, but
the content is only the body after the closing delimiter, not the whole
document. -/
theorem parse_skill_md_fallbacks (req doc : String) :
    (skillSplitParts doc.data = none →
      parse_skill_md req doc = { name := req, content := doc }) ∧
    (¬ ("---".data <+: doc.data) → skillSplitParts doc.data = none) ∧
    (∀ fm body, skillSplitParts doc.data = some (fm, body) →
      parseSkillYaml ⟨fm⟩ = none →
      parse_skill_md req doc = { name := req, content := (⟨body⟩ : String) }) := by
  refine ⟨?_, ?_, ?_⟩
  · intro h
    unfold parse_skill_md
    rw [h]
  · intro h
    have hfalse : ("---".data.isPrefixOf doc.data) = false := by
      rcases hc : "---".data.isPrefixOf doc.data with _ | _
      · rfl
      · exact absurd (List.isPrefixOf_iff_prefix.mp hc) h
    unfold skillSplitParts
    rw [hfalse]
    rfl
  · intro fm body h hy
    rw [parse_skill_md_split_some req doc fm body h, hy]
    show (if req = "" then ({ name := req, content := (⟨body⟩ : String) } : Skill)
      else { name := req, content := (⟨body⟩ : String) }) = _
    split <;> rfl

/-- Witness for C7 (amended): a document with no leading delimiter parses to
itself as content, and the malformed-frontmatter document parses to the body
after the closing delimiter. -/
theorem parse_skill_md_fallbacks_witness :
    parse_skill_md "req" "just a document" =
      { name := "req", content := "just a document" } ∧
    parse_skill_md "req2" "---\nmalformed\n---\nBODY" =
      { name := "req2", content := "BODY" } := by
  constructor
  · exact (parse_skill_md_fallbacks "req" "just a document").1
      ((parse_skill_md_fallbacks "req" "just a document").2.1 (by decide))
  · exact (parse_skill_md_fallbacks "req2" "---\nmalformed\n---\nBODY").2.2
      "malformed".data "BODY".data (by decide) (by decide)
